import Mathlib

/-!
Verification of the certman certificate manager (dyson/certman).

The development shallowly embeds `certman.go`.  External effects are
modelled as oracles passed to the embedded functions:

* `tls.LoadX509KeyPair` (a file read plus parse/cross-check performed by
  the Go standard library) is an `Except LoadErr KeyPair` argument;
* `fsnotify.NewWatcher` success is a `Bool` argument;
* `watcher.Add dir` succeeds exactly when the oracle `fsOk : String → Bool`
  holds of `dir`;
* the logger (`cm.log.Printf ...`) is modelled as an append-only list of
  `LogMsg` values, one constructor per distinct format string in the source;
* the background goroutine `run` is modelled as a step function
  `runStep` folded over a trace of select-arms (`RunInput`), each input
  carrying the wall-clock time (`ℚ`, in seconds) at which it is handled.
-/

/-- Opaque model of `tls.Certificate`: reloads publish a wholly new value,
so only identity matters for the properties proved here. -/
structure KeyPair where
  id : Nat
deriving DecidableEq

/-- Classes of failure of `tls.LoadX509KeyPair` (external library),
following the spec's reload-failure taxonomy. -/
inductive LoadErr where
  | mismatchedPair
  | fileUnreadable
  | parseFailure
deriving DecidableEq

/-- One constructor per `Printf` format string appearing in `certman.go`. -/
inductive LogMsg where
  /-- both the one in `load` (line 126, `%s`) and the one at the call sites
  (`Watch` line 104 and `run` line 149, `%v`): the rendered text
  `can't load cert or key file: ...` is identical for the same error. -/
  | loadFailed (e : LoadErr)
  /-- `certificate and key loaded` (line 122) -/
  | loaded
  /-- `watching for cert and key change` (line 107) -/
  | watchingForChange
  /-- `running` (line 132) -/
  | running
  /-- `watching triggered; break loop` (line 142) -/
  | breakLoop
  /-- `stopped watching` (line 170) -/
  | stoppedWatching
  /-- `%s was modified (%s), queue reload` (line 159) -/
  | queueReload (f : String) (op : String)
  /-- `reloading` (line 147) -/
  | reloading
  /-- `error watching files: %v` (line 166) -/
  | watchFault (e : String)
deriving DecidableEq

/-- Errors returned by `Watch` (lines 88, 95, 99): `errors.Wrap` of the
watcher failure with the shown message.  Note the registration failure
message carries the directory path, nothing else. -/
inductive WatchErr where
  | cantCreateWatcher
  | cantWatch (dir : String)
deriving DecidableEq

/-- The `CertMan` struct (lines 28-36).  `watcher` is external state;
`watching` models the `watching chan bool` field being non-nil (the
channel is created and the `run` goroutine spawned).  The mutex is not
represented: the single-writer discipline is captured by the sequential
step semantics. -/
structure CertMan where
  certFile : String
  keyFile : String
  keyPair : Option KeyPair
  watching : Bool
  log : List LogMsg
deriving DecidableEq

/-- `New` (lines 50-71).  `filepath.Abs` is an OS call; the model takes the
already-resolved absolute paths (`New` only fails if resolution fails,
which is outside the embedded fragment). -/
def New (certFile keyFile : String) : CertMan :=
  { certFile := certFile, keyFile := keyFile, keyPair := none,
    watching := false, log := [] }

/-- `load` (lines 116-129): on success commit the pair and log
`certificate and key loaded`; on failure log
`can't load cert or key file: %s` and return the error, leaving the
stored pair untouched. -/
def CertMan.load (cm : CertMan) (res : Except LoadErr KeyPair) :
    CertMan × Option LoadErr :=
  match res with
  | .ok kp => ({ cm with keyPair := some kp, log := cm.log ++ [LogMsg.loaded] }, none)
  | .error e => ({ cm with log := cm.log ++ [LogMsg.loadFailed e] }, some e)

/-!  Go's `path.Dir` / `path.Clean` (package `path`), used at
`certman.go` lines 91-92, transcribed from the Go standard library.
`cleanCore` is the main loop of `Clean` with the output buffer kept in
reverse (`out`, head = most recently written byte) and fuel equal to the
remaining input length plus one (every iteration consumes at least one
input character, so the fuel never runs out). -/

namespace GoPath

/-- The inner backtracking loop of the `..` case of `Clean`:
`out.w--; for out.w > dotdot && out.index(out.w) != '/' { out.w-- }`.
`r` is the character most recently removed. -/
def backtrackLoop (dotdot : Nat) : Char → List Char → List Char
  | _, [] => []
  | r, h :: t =>
    if (h :: t).length > dotdot ∧ r ≠ '/' then backtrackLoop dotdot h t
    else h :: t

/-- The `..` backtracking step (precondition in `Clean`: `out.w > dotdot`,
so the buffer is non-empty). -/
def backtrack (dotdot : Nat) : List Char → List Char
  | [] => []
  | h :: t => backtrackLoop dotdot h t

/-- Main loop of `path.Clean`; `out` is the output buffer reversed. -/
def cleanCore : Nat → List Char → List Char → Nat → Bool → List Char
  | 0, _, out, _, _ => out
  | _ + 1, [], out, _, _ => out
  | fuel + 1, c :: rest, out, dotdot, rooted =>
    if c = '/' then
      cleanCore fuel rest out dotdot rooted
    else if c = '.' ∧ (rest = [] ∨ rest.head? = some '/') then
      cleanCore fuel rest out dotdot rooted
    else if c = '.' ∧ rest.head? = some '.' ∧
        (rest.tail = [] ∨ rest.tail.head? = some '/') then
      if out.length > dotdot then
        cleanCore fuel rest.tail (backtrack dotdot out) dotdot rooted
      else if !rooted then
        let out2 := if out.length > 0 then '/' :: out else out
        let out3 := '.' :: '.' :: out2
        cleanCore fuel rest.tail out3 out3.length rooted
      else
        cleanCore fuel rest.tail out dotdot rooted
    else
      let out2 :=
        if (rooted ∧ out.length ≠ 1) ∨ (!rooted ∧ out.length ≠ 0)
        then '/' :: out else out
      let seg := (c :: rest).takeWhile (fun x => x ≠ '/')
      let rest2 := (c :: rest).dropWhile (fun x => x ≠ '/')
      cleanCore fuel rest2 (seg.reverse ++ out2) dotdot rooted

/-- `path.Clean`. -/
def clean (p : String) : String :=
  let cs := p.toList
  if cs = [] then "."
  else
    let rooted := cs.head? = some '/'
    let inp := if rooted then cs.tail else cs
    let out0 : List Char := if rooted then ['/'] else []
    let dd0 : Nat := if rooted then 1 else 0
    let out := cleanCore (inp.length + 1) inp out0 dd0 rooted
    if out.length = 0 then "." else String.mk out.reverse

/-- `path.Dir`: everything up to and including the final slash
(`path.Split`), then `Clean`. -/
def dir (p : String) : String :=
  let cs := p.toList
  let pre := (cs.reverse.dropWhile (fun c => c ≠ '/')).reverse
  clean (String.mk pre)

end GoPath

/-- The sequence of `watcher.Add` calls performed by `Watch`
(lines 91-101): the certificate's directory, then the key's directory
only when it differs. -/
def CertMan.watchRegistrations (cm : CertMan) : List String :=
  let certPath := GoPath.dir cm.certFile
  let keyPath := GoPath.dir cm.keyFile
  certPath :: (if keyPath != certPath then [keyPath] else [])

/-- `Watch` (lines 84-114).  `watcherOk` models `fsnotify.NewWatcher`
succeeding; `fsOk d` models `watcher.Add d` succeeding.  The initial
`load` failure is logged twice: once inside `load` and once by `Watch`
itself (lines 103-105), exactly as in the source. -/
def CertMan.Watch (fsOk : String → Bool) (watcherOk : Bool)
    (loadRes : Except LoadErr KeyPair) (cm : CertMan) :
    Except WatchErr CertMan :=
  if !watcherOk then
    .error .cantCreateWatcher
  else
    let certPath := GoPath.dir cm.certFile
    let keyPath := GoPath.dir cm.keyFile
    if !fsOk certPath then
      .error (.cantWatch certPath)
    else if keyPath != certPath && !fsOk keyPath then
      .error (.cantWatch keyPath)
    else
      let cm1 : CertMan :=
        match cm.load loadRes with
        | (cm', none) => cm'
        | (cm', some e) => { cm' with log := cm'.log ++ [LogMsg.loadFailed e] }
      .ok { cm1 with log := cm1.log ++ [LogMsg.watchingForChange], watching := true }

/-- `GetCertificate` (lines 178-183): returns the stored pair pointer and a
nil error, under a read lock.  The handshake context
(`*tls.ClientHelloInfo`) is unused, modelled as `Unit`; the Go `error`
result is `Option String` (`none` = nil). -/
def CertMan.GetCertificate (cm : CertMan) (_hello : Unit) :
    Option KeyPair × Option String :=
  (cm.keyPair, none)

/-- `GetClientCertificate` (lines 187-191): identical body. -/
def CertMan.GetClientCertificate (cm : CertMan) (_hello : Unit) :
    Option KeyPair × Option String :=
  (cm.keyPair, none)

/-! ### The `run` loop (lines 131-174) -/

/-- One select arm of the `run` loop, together with the wall-clock time
(seconds, `ℚ`) at which it is handled and, for ticks, the result the
filesystem would give `tls.LoadX509KeyPair` at that moment. -/
inductive RunInput where
  | stopSignal
  | tick (now : ℚ) (res : Except LoadErr KeyPair)
  | fsevent (now : ℚ) (name op : String)
  | watchFault (e : String)

/-- State of the `run` loop: the manager plus the loop-local `reload`
deadline (`none` models the zero `time.Time{}`), whether the loop has
exited (`break loop`), and `fired`, which counts executions of the
reload branch (each increment coincides with the `reloading` log line,
line 147). -/
structure RunState where
  cm : CertMan
  reload : Option ℚ
  stopped : Bool
  fired : Nat

/-- Entry to `run` (lines 132-136): log `running`, deadline zero. -/
def initRun (cm : CertMan) : RunState :=
  { cm := { cm with log := cm.log ++ [LogMsg.running] },
    reload := none, stopped := false, fired := 0 }

/-- Go's `strings.HasSuffix` (used at line 157): `s` ends with `suffix`
(`len(s) >= len(suffix) && s[len(s)-len(suffix):] == suffix`). -/
def hasSuffix (s suffix : String) : Bool :=
  suffix.toList.isSuffixOf s.toList

/-- The per-file test of the event branch (line 156-157):
`event.Name == f || strings.HasSuffix(event.Name, "/..data")`. -/
def fileMatch (f name : String) : Bool :=
  name == f || hasSuffix name "/..data"

/-- One iteration of `for _, f := range files` (lines 155-164): when the
condition holds, log `queue reload` if the deadline was zero, then set
the deadline to one second from now (`time.Now().Add(1 * time.Second)`). -/
def stepEventFile (now : ℚ) (name op : String) (st : RunState) (f : String) :
    RunState :=
  if fileMatch f name then
    let st1 :=
      if st.reload.isNone then
        { st with cm := { st.cm with log := st.cm.log ++ [LogMsg.queueReload f op] } }
      else st
    { st1 with reload := some (now + 1) }
  else st

/-- The whole event branch: the loop runs over `files := [certFile, keyFile]`
(line 135). -/
def handleEvent (now : ℚ) (name op : String) (st : RunState) : RunState :=
  [st.cm.certFile, st.cm.keyFile].foldl (stepEventFile now name op) st

/-- The ticker branch (lines 144-151): fire iff the deadline is non-zero and
`time.Now().After(reload)` (strictly after); clear the deadline, log
`reloading`, run `load`, and log the failure again on error. -/
def handleTick (now : ℚ) (res : Except LoadErr KeyPair) (st : RunState) :
    RunState :=
  match st.reload with
  | some d =>
    if d < now then
      let st1 :=
        { st with
          reload := none,
          fired := st.fired + 1,
          cm := { st.cm with log := st.cm.log ++ [LogMsg.reloading] } }
      match st1.cm.load res with
      | (cm', none) => { st1 with cm := cm' }
      | (cm', some e) =>
        { st1 with cm := { cm' with log := cm'.log ++ [LogMsg.loadFailed e] } }
    else st
  | none => st

/-- One iteration of the `select` (lines 139-167); once the loop has been
broken no further input is processed. -/
def runStep (st : RunState) (i : RunInput) : RunState :=
  if st.stopped then st
  else
    match i with
    | .stopSignal =>
      { st with
        stopped := true,
        cm := { st.cm with log := st.cm.log ++ [LogMsg.breakLoop] } }
    | .tick now res => handleTick now res st
    | .fsevent now name op => handleEvent now name op st
    | .watchFault e =>
      { st with cm := { st.cm with log := st.cm.log ++ [LogMsg.watchFault e] } }

/-- The loop over a whole trace of select arms. -/
def runTrace (st : RunState) (tr : List RunInput) : RunState :=
  tr.foldl runStep st

/-- A trace input that is not a successfully-loading tick. -/
def noSuccess : RunInput → Prop
  | .tick _ (.ok _) => False
  | _ => True

instance : DecidablePred noSuccess := by
  intro i
  cases i with
  | tick now res =>
    cases res with
    | ok kp => exact .isFalse (fun h => h)
    | error e => exact .isTrue trivial
  | stopSignal => exact .isTrue trivial
  | fsevent now name op => exact .isTrue trivial
  | watchFault e => exact .isTrue trivial

/-! ### Interleaving model for `Stop` (lines 195-197) and the goroutine tail

`Stop` is `cm.watching <- false`: a send on the unbuffered `watching`
channel.  A send on an unbuffered channel completes exactly at the
rendezvous with a receiver; a send on a `nil` channel (before `Watch`
creates it) or on a channel nobody ever receives from again (after the
loop has exited) blocks forever.  The model interleaves the caller's
thread with the `run` goroutine: the goroutine's observable program
points are the `select` (line 140) and the straight-line tail after a
stop is received (lines 142, 170, 172-173). -/

/-- Program counter of the `run` goroutine. -/
inductive LoopPC where
  /-- `Watch` has not been called: `cm.watching` is nil, no goroutine. -/
  | notStarted
  /-- blocked at the `select`, able to receive from `cm.watching`. -/
  | selecting
  /-- received the stop value; about to log `watching triggered; break loop`. -/
  | gotStop
  /-- broke out of the loop; about to log `stopped watching`. -/
  | exitedLoop
  /-- logged `stopped watching`; about to run `cm.watcher.Close()`. -/
  | loggedStop
  /-- closed the watcher (and stopped the ticker); goroutine finished. -/
  | done
deriving DecidableEq

/-- Joint state of the caller thread and the goroutine.  `stopsRequested`
counts invocations of `Stop`; `stopsReturned` counts those whose channel
send has completed (the call has returned to the caller). -/
structure SysState where
  pc : LoopPC
  stopsRequested : Nat
  stopsReturned : Nat
  watcherClosed : Bool
  eventsProcessed : Nat
  log : List LogMsg
deriving DecidableEq

/-- Scheduler choices. -/
inductive SysAction where
  /-- the caller invokes `Stop` and begins the (blocking) channel send. -/
  | callStop
  /-- the channel rendezvous: enabled only while the goroutine sits at the
  `select` and a `Stop` call is pending; completing it simultaneously
  returns control to the `Stop` caller and moves the loop past the
  receive arm. -/
  | rendezvous
  /-- the watcher delivers a filesystem event and the loop processes it;
  enabled only at the `select`. -/
  | deliverEvent
  /-- the goroutine executes its next straight-line action. -/
  | loopStep
deriving DecidableEq

/-- One interleaving step. -/
def sysStep (s : SysState) : SysAction → SysState
  | .callStop => { s with stopsRequested := s.stopsRequested + 1 }
  | .rendezvous =>
    if s.pc = .selecting ∧ s.stopsReturned < s.stopsRequested then
      { s with pc := .gotStop, stopsReturned := s.stopsReturned + 1 }
    else s
  | .deliverEvent =>
    if s.pc = .selecting then
      { s with eventsProcessed := s.eventsProcessed + 1 }
    else s
  | .loopStep =>
    match s.pc with
    | .gotStop =>
      { s with pc := .exitedLoop, log := s.log ++ [LogMsg.breakLoop] }
    | .exitedLoop =>
      { s with pc := .loggedStop, log := s.log ++ [LogMsg.stoppedWatching] }
    | .loggedStop =>
      { s with pc := .done, watcherClosed := true }
    | _ => s

/-- Run a schedule. -/
def sysRun (s : SysState) (tr : List SysAction) : SysState :=
  tr.foldl sysStep s

/-- System state right after a successful `Watch`: loop at its `select`. -/
def sysWatching : SysState :=
  { pc := .selecting, stopsRequested := 0, stopsReturned := 0,
    watcherClosed := false, eventsProcessed := 0, log := [] }

/-- `Stop` invoked on a manager on which `Watch` was never called:
the send is on a nil channel and there is no goroutine. -/
def sysPreStartStop : SysState :=
  { pc := .notStarted, stopsRequested := 1, stopsReturned := 0,
    watcherClosed := false, eventsProcessed := 0, log := [] }

/-- A second `Stop` invoked after a first stop has fully completed:
the goroutine is gone, nobody will ever receive again. -/
def sysSecondStop : SysState :=
  { pc := .done, stopsRequested := 2, stopsReturned := 1,
    watcherClosed := true, eventsProcessed := 0,
    log := [LogMsg.breakLoop, LogMsg.stoppedWatching] }

/-- Recognizer for the reload-failure log line. -/
def isLoadFail : LogMsg → Bool
  | .loadFailed _ => true
  | _ => false

/-! ### Burst descriptors for the debounce property

A burst of filesystem events, possibly interleaved with ticker wake-ups:
each segment is the ticks handled before one event, followed by that
event; `trailing` are the tick times handled after the last event. -/

/-- One event of a burst together with the ticker wake-ups handled
just before it. -/
structure BurstSeg where
  ticks : List ℚ
  evTime : ℚ
  evName : String
  evOp : String

/-- The select arms of one segment. -/
def segTrace (res : Except LoadErr KeyPair) (s : BurstSeg) : List RunInput :=
  s.ticks.map (fun τ => RunInput.tick τ res) ++
    [RunInput.fsevent s.evTime s.evName s.evOp]

/-- The select arms of all segments. -/
def segsTrace (res : Except LoadErr KeyPair) (segs : List BurstSeg) :
    List RunInput :=
  (segs.map (segTrace res)).flatten

/-- A whole burst: segments, then the trailing ticker wake-ups. -/
def burstTrace (res : Except LoadErr KeyPair) (segs : List BurstSeg)
    (trailing : List ℚ) : List RunInput :=
  segsTrace res segs ++ trailing.map (fun τ => RunInput.tick τ res)

/-- Well-formedness of a burst relative to the watched files and the time
of the previous event (`prev`): ticks precede their segment's event; each
event is within the one-second debounce window of the previous one; every
event matches the watched files (equals one of them, or carries the
Kubernetes `..data` suffix). -/
def segsChained (cert key : String) : Option ℚ → List BurstSeg → Prop
  | _, [] => True
  | prev, s :: rest =>
    (∀ τ ∈ s.ticks, τ ≤ s.evTime) ∧
    (match prev with
     | none => True
     | some tp => s.evTime < tp + 1) ∧
    (fileMatch cert s.evName || fileMatch key s.evName) = true ∧
    segsChained cert key (some s.evTime) rest

/-! ### Helper lemmas about the run loop -/

section RunLemmas

theorem stepEventFile_cm_const (now : ℚ) (name op : String) (st : RunState)
    (f : String) :
    (stepEventFile now name op st f).cm.certFile = st.cm.certFile ∧
    (stepEventFile now name op st f).cm.keyFile = st.cm.keyFile ∧
    (stepEventFile now name op st f).cm.keyPair = st.cm.keyPair ∧
    (stepEventFile now name op st f).stopped = st.stopped ∧
    (stepEventFile now name op st f).fired = st.fired := by
  unfold stepEventFile
  split
  · split <;> simp
  · simp

theorem stepEventFile_matched (now : ℚ) (name op : String) (st : RunState)
    (f : String) (h : fileMatch f name = true) :
    (stepEventFile now name op st f).reload = some (now + 1) := by
  unfold stepEventFile
  rw [if_pos h]

theorem stepEventFile_unmatched (now : ℚ) (name op : String) (st : RunState)
    (f : String) (h : fileMatch f name = false) :
    stepEventFile now name op st f = st := by
  unfold stepEventFile
  simp [h]

theorem handleEvent_eq (now : ℚ) (name op : String) (st : RunState) :
    handleEvent now name op st =
      stepEventFile now name op
        (stepEventFile now name op st st.cm.certFile) st.cm.keyFile := rfl

theorem handleEvent_cm_const (now : ℚ) (name op : String) (st : RunState) :
    (handleEvent now name op st).cm.certFile = st.cm.certFile ∧
    (handleEvent now name op st).cm.keyFile = st.cm.keyFile ∧
    (handleEvent now name op st).cm.keyPair = st.cm.keyPair ∧
    (handleEvent now name op st).stopped = st.stopped ∧
    (handleEvent now name op st).fired = st.fired := by
  rw [handleEvent_eq]
  have h1 := stepEventFile_cm_const now name op st st.cm.certFile
  have h2 := stepEventFile_cm_const now name op
    (stepEventFile now name op st st.cm.certFile) st.cm.keyFile
  exact ⟨h2.1.trans h1.1, h2.2.1.trans h1.2.1, h2.2.2.1.trans h1.2.2.1,
    h2.2.2.2.1.trans h1.2.2.2.1, h2.2.2.2.2.trans h1.2.2.2.2⟩

theorem handleEvent_matched (now : ℚ) (name op : String) (st : RunState)
    (h : (fileMatch st.cm.certFile name || fileMatch st.cm.keyFile name) = true) :
    (handleEvent now name op st).reload = some (now + 1) := by
  rw [handleEvent_eq]
  rcases Bool.or_eq_true_iff.mp h with hc | hk
  · cases hk : fileMatch st.cm.keyFile name
    · rw [stepEventFile_unmatched _ _ _ _ _ hk]
      exact stepEventFile_matched _ _ _ _ _ hc
    · exact stepEventFile_matched _ _ _ _ _ hk
  · exact stepEventFile_matched _ _ _ _ _ hk

theorem handleEvent_unmatched (now : ℚ) (name op : String) (st : RunState)
    (hc : fileMatch st.cm.certFile name = false)
    (hk : fileMatch st.cm.keyFile name = false) :
    handleEvent now name op st = st := by
  rw [handleEvent_eq, stepEventFile_unmatched _ _ _ _ _ hc,
    stepEventFile_unmatched _ _ _ _ _ hk]

end RunLemmas

section TickLemmas

theorem handleTick_nofire_none (now : ℚ) (res : Except LoadErr KeyPair)
    (st : RunState) (h : st.reload = none) :
    handleTick now res st = st := by
  unfold handleTick
  rw [h]

theorem handleTick_nofire_early (now : ℚ) (res : Except LoadErr KeyPair)
    (st : RunState) (d : ℚ) (h : st.reload = some d) (hd : ¬ d < now) :
    handleTick now res st = st := by
  unfold handleTick
  rw [h]
  simp [hd]

theorem handleTick_fire (now : ℚ) (res : Except LoadErr KeyPair)
    (st : RunState) (d : ℚ) (h : st.reload = some d) (hd : d < now) :
    (handleTick now res st).reload = none ∧
    (handleTick now res st).fired = st.fired + 1 ∧
    (handleTick now res st).stopped = st.stopped ∧
    (handleTick now res st).cm.certFile = st.cm.certFile ∧
    (handleTick now res st).cm.keyFile = st.cm.keyFile := by
  unfold handleTick
  rw [h]
  cases res <;> simp [hd, CertMan.load]

theorem handleTick_fail_keyPair (now : ℚ) (e : LoadErr) (st : RunState) :
    (handleTick now (.error e) st).cm.keyPair = st.cm.keyPair := by
  unfold handleTick
  cases h : st.reload with
  | none => rfl
  | some d =>
    by_cases hd : d < now
    · simp [hd, CertMan.load]
    · simp [hd]

theorem handleTick_ok_keyPair (now : ℚ) (kp : KeyPair) (st : RunState)
    (d : ℚ) (h : st.reload = some d) (hd : d < now) :
    (handleTick now (.ok kp) st).cm.keyPair = some kp := by
  unfold handleTick
  rw [h]
  simp [hd, CertMan.load]

end TickLemmas

section RunStepLemmas

theorem runStep_cm_files (st : RunState) (i : RunInput) :
    (runStep st i).cm.certFile = st.cm.certFile ∧
    (runStep st i).cm.keyFile = st.cm.keyFile := by
  unfold runStep
  by_cases hs : st.stopped = true
  · simp [hs]
  · simp only [hs, if_false, Bool.false_eq_true]
    cases i with
    | stopSignal => simp
    | tick now res =>
      simp only
      unfold handleTick
      cases h : st.reload with
      | none => simp
      | some d =>
        by_cases hd : d < now
        · cases res <;> simp [hd, CertMan.load]
        · simp [hd]
    | fsevent now name op =>
      have := handleEvent_cm_const now name op st
      exact ⟨this.1, this.2.1⟩
    | watchFault e => simp

theorem runStep_keyPair_mono (st : RunState) (i : RunInput)
    (h : st.cm.keyPair.isSome = true) :
    (runStep st i).cm.keyPair.isSome = true := by
  unfold runStep
  by_cases hs : st.stopped = true
  · simpa [hs] using h
  · simp only [hs, if_false, Bool.false_eq_true]
    cases i with
    | stopSignal => simpa using h
    | tick now res =>
      simp only
      unfold handleTick
      cases hr : st.reload with
      | none => simpa using h
      | some d =>
        by_cases hd : d < now
        · cases res <;> simp_all [hd, CertMan.load]
        · simpa [hd] using h
    | fsevent now name op =>
      have := (handleEvent_cm_const now name op st).2.2.1
      simpa [this] using h
    | watchFault e => simpa using h

theorem runStep_keyPair_noSuccess (st : RunState) (i : RunInput)
    (h : noSuccess i) :
    (runStep st i).cm.keyPair = st.cm.keyPair := by
  unfold runStep
  by_cases hs : st.stopped = true
  · simp [hs]
  · simp only [hs, if_false, Bool.false_eq_true]
    cases i with
    | stopSignal => simp
    | tick now res =>
      cases res with
      | ok kp => exact absurd h (fun hh => hh)
      | error e => exact handleTick_fail_keyPair now e st
    | fsevent now name op =>
      exact (handleEvent_cm_const now name op st).2.2.1
    | watchFault e => simp

theorem runTrace_keyPair_mono (tr : List RunInput) :
    ∀ (st : RunState), st.cm.keyPair.isSome = true →
      (runTrace st tr).cm.keyPair.isSome = true := by
  induction tr with
  | nil => intro st h; exact h
  | cons i rest ih =>
    intro st h
    exact ih (runStep st i) (runStep_keyPair_mono st i h)

theorem runTrace_keyPair_noSuccess (tr : List RunInput) :
    ∀ (st : RunState), (∀ i ∈ tr, noSuccess i) →
      (runTrace st tr).cm.keyPair = st.cm.keyPair := by
  induction tr with
  | nil => intro st _; rfl
  | cons i rest ih =>
    intro st h
    have h1 : noSuccess i := h i (List.mem_cons_self i rest)
    have h2 : ∀ j ∈ rest, noSuccess j := fun j hj => h j (List.mem_cons_of_mem i hj)
    calc (runTrace st (i :: rest)).cm.keyPair
        = (runTrace (runStep st i) rest).cm.keyPair := rfl
      _ = (runStep st i).cm.keyPair := ih (runStep st i) h2
      _ = st.cm.keyPair := runStep_keyPair_noSuccess st i h1

theorem runTrace_append (st : RunState) (a b : List RunInput) :
    runTrace st (a ++ b) = runTrace (runTrace st a) b :=
  List.foldl_append runStep st a b

end RunStepLemmas

section BurstLemmas

theorem runStep_tick_eq (st : RunState) (now : ℚ)
    (res : Except LoadErr KeyPair) (hs : st.stopped = false) :
    runStep st (.tick now res) = handleTick now res st := by
  unfold runStep
  rw [hs]
  rfl

theorem runStep_fsevent_eq (st : RunState) (now : ℚ) (name op : String)
    (hs : st.stopped = false) :
    runStep st (.fsevent now name op) = handleEvent now name op st := by
  unfold runStep
  rw [hs]
  rfl

theorem runTrace_ticks_noop (res : Except LoadErr KeyPair) (ts : List ℚ) :
    ∀ (st : RunState),
      (∀ τ ∈ ts, ∀ d, st.reload = some d → ¬ d < τ) →
      runTrace st (ts.map (fun τ => RunInput.tick τ res)) = st := by
  induction ts with
  | nil => intro st _; rfl
  | cons τ rest ih =>
    intro st h
    have hstep : runStep st (RunInput.tick τ res) = st := by
      by_cases hs : st.stopped = true
      · unfold runStep; rw [hs]; rfl
      · rw [runStep_tick_eq st τ res (Bool.not_eq_true _ ▸ hs)]
        cases hr : st.reload with
        | none => exact handleTick_nofire_none τ res st hr
        | some d =>
          exact handleTick_nofire_early τ res st d hr
            (h τ (List.mem_cons_self τ rest) d hr)
    calc runTrace st ((τ :: rest).map (fun τ => RunInput.tick τ res))
        = runTrace (runStep st (RunInput.tick τ res))
            (rest.map (fun τ => RunInput.tick τ res)) := rfl
      _ = runTrace st (rest.map (fun τ => RunInput.tick τ res)) := by rw [hstep]
      _ = st := ih st (fun τ' h' d hd => h τ' (List.mem_cons_of_mem τ h') d hd)

theorem runTrace_trailing_fire (res : Except LoadErr KeyPair) (ts : List ℚ) :
    ∀ (st : RunState) (D : ℚ), st.stopped = false → st.reload = some D →
      (∃ τ ∈ ts, D < τ) →
      (runTrace st (ts.map (fun τ => RunInput.tick τ res))).fired =
        st.fired + 1 := by
  induction ts with
  | nil =>
    rintro st D _ _ ⟨τ, hm, _⟩
    exact absurd hm (List.not_mem_nil τ)
  | cons τ rest ih =>
    intro st D hs hr hex
    by_cases hd : D < τ
    · have hstep₁ : runStep st (RunInput.tick τ res) = handleTick τ res st :=
        runStep_tick_eq st τ res hs
      have hf := handleTick_fire τ res st D hr hd
      have hnone : (runStep st (RunInput.tick τ res)).reload = none := by
        rw [hstep₁]; exact hf.1
      have hrest := runTrace_ticks_noop res rest (runStep st (RunInput.tick τ res))
        (fun τ' _ d hd' => by rw [hnone] at hd'; cases hd')
      calc (runTrace st ((τ :: rest).map (fun τ => RunInput.tick τ res))).fired
          = (runTrace (runStep st (RunInput.tick τ res))
              (rest.map (fun τ => RunInput.tick τ res))).fired := rfl
        _ = (runStep st (RunInput.tick τ res)).fired := by rw [hrest]
        _ = st.fired + 1 := by rw [hstep₁]; exact hf.2.1
    · have hstep : runStep st (RunInput.tick τ res) = st := by
        rw [runStep_tick_eq st τ res hs]
        exact handleTick_nofire_early τ res st D hr hd
      have hex' : ∃ τ' ∈ rest, D < τ' := by
        rcases hex with ⟨τ', hm, hlt⟩
        rcases List.mem_cons.mp hm with h1 | h2
        · exact absurd (h1 ▸ hlt) hd
        · exact ⟨τ', h2, hlt⟩
      calc (runTrace st ((τ :: rest).map (fun τ => RunInput.tick τ res))).fired
          = (runTrace (runStep st (RunInput.tick τ res))
              (rest.map (fun τ => RunInput.tick τ res))).fired := rfl
        _ = (runTrace st (rest.map (fun τ => RunInput.tick τ res))).fired := by
            rw [hstep]
        _ = st.fired + 1 := ih st D hs hr hex'
end BurstLemmas

theorem runTrace_segs (res : Except LoadErr KeyPair) :
    ∀ (segs : List BurstSeg) (st : RunState) (prev : Option ℚ)
      (hne : segs ≠ []),
      st.stopped = false →
      st.reload = prev.map (fun t => t + 1) →
      segsChained st.cm.certFile st.cm.keyFile prev segs →
      (runTrace st (segsTrace res segs)).reload =
          some ((segs.getLast hne).evTime + 1) ∧
      (runTrace st (segsTrace res segs)).fired = st.fired ∧
      (runTrace st (segsTrace res segs)).stopped = false := by
  intro segs
  induction segs with
  | nil => intro st prev hne; exact absurd rfl hne
  | cons s rest ih =>
    intro st prev hne hs hr hchain
    obtain ⟨hticks, hwin, hmatch, hrest⟩ := hchain
    have htr : segsTrace res (s :: rest) = segTrace res s ++ segsTrace res rest := by
      simp [segsTrace]
    have hnoop : runTrace st (s.ticks.map (fun τ => RunInput.tick τ res)) = st := by
      apply runTrace_ticks_noop
      intro τ hτ d hd
      cases prev with
      | none =>
        rw [hr] at hd
        cases hd
      | some tp =>
        rw [hr] at hd
        have hd' : tp + 1 = d := by
          simpa using hd
        have h1 : τ ≤ s.evTime := hticks τ hτ
        have h2 : s.evTime < tp + 1 := hwin
        intro hlt
        rw [← hd'] at hlt
        exact lt_asymm (lt_of_le_of_lt h1 h2) hlt
    have hev := runStep_fsevent_eq st s.evTime s.evName s.evOp hs
    have hcc := handleEvent_cm_const s.evTime s.evName s.evOp st
    have hst2rel : (runStep st (RunInput.fsevent s.evTime s.evName s.evOp)).reload =
        some (s.evTime + 1) := by
      rw [hev]; exact handleEvent_matched s.evTime s.evName s.evOp st hmatch
    have hseg : runTrace st (segTrace res s) =
        runStep st (RunInput.fsevent s.evTime s.evName s.evOp) := by
      unfold segTrace
      rw [runTrace_append, hnoop]
      rfl
    set st2 := runStep st (RunInput.fsevent s.evTime s.evName s.evOp) with hst2
    have hst2stop : st2.stopped = false := by
      rw [hev, hcc.2.2.2.1]; exact hs
    have hst2fired : st2.fired = st.fired := by
      rw [hev]; exact hcc.2.2.2.2
    have hst2cert : st2.cm.certFile = st.cm.certFile := by
      rw [hev]; exact hcc.1
    have hst2key : st2.cm.keyFile = st.cm.keyFile := by
      rw [hev]; exact hcc.2.1
    cases rest with
    | nil =>
      have : runTrace st (segsTrace res [s]) = st2 := by
        rw [htr]
        rw [runTrace_append, hseg]
        rfl
      rw [this]
      exact ⟨hst2rel, hst2fired, hst2stop⟩
    | cons s2 rest2 =>
      have hne2 : s2 :: rest2 ≠ [] := List.cons_ne_nil s2 rest2
      have hchain2 : segsChained st2.cm.certFile st2.cm.keyFile
          (some s.evTime) (s2 :: rest2) := by
        rw [hst2cert, hst2key]; exact hrest
      have hrel2 : st2.reload = (some s.evTime).map (fun t => t + 1) := by
        simpa using hst2rel
      have hmain := ih st2 (some s.evTime) hne2 hst2stop hrel2 hchain2
      have htrace : runTrace st (segsTrace res (s :: s2 :: rest2)) =
          runTrace st2 (segsTrace res (s2 :: rest2)) := by
        rw [htr, runTrace_append, hseg]
      have hlast : ((s :: s2 :: rest2).getLast hne).evTime =
          ((s2 :: rest2).getLast hne2).evTime := by
        rw [List.getLast_cons hne2]
      rw [htrace, hlast]
      exact ⟨hmain.1, hmain.2.1.trans hst2fired, hmain.2.2⟩

section WatchLemmas

theorem Watch_error_keyPair (fsOk : String → Bool) (w : Bool) (e : LoadErr)
    (cm cm' : CertMan) (h : cm.Watch fsOk w (.error e) = .ok cm') :
    cm'.keyPair = cm.keyPair := by
  simp only [CertMan.Watch, CertMan.load] at h
  split at h
  · cases h
  · split at h
    · cases h
    · split at h
      · cases h
      · injection h with h2
        subst h2
        rfl

theorem Watch_ok_of_dirs (fsOk : String → Bool)
    (loadRes : Except LoadErr KeyPair) (cm : CertMan)
    (hc : fsOk (GoPath.dir cm.certFile) = true)
    (hk : GoPath.dir cm.keyFile = GoPath.dir cm.certFile ∨
      fsOk (GoPath.dir cm.keyFile) = true) :
    ∃ cm', cm.Watch fsOk true loadRes = .ok cm' ∧
      cm'.watching = true ∧
      LogMsg.watchingForChange ∈ cm'.log ∧
      (∀ e, loadRes = .error e →
        cm'.keyPair = cm.keyPair ∧ LogMsg.loadFailed e ∈ cm'.log) ∧
      (∀ kp, loadRes = .ok kp → cm'.keyPair = some kp) := by
  have hsnd : (GoPath.dir cm.keyFile != GoPath.dir cm.certFile &&
      !fsOk (GoPath.dir cm.keyFile)) = false := by
    rcases hk with h | h
    · simp [h]
    · simp [h]
  simp only [CertMan.Watch, hc, hsnd, Bool.not_true, Bool.false_eq_true,
    if_false]
  cases loadRes with
  | ok kp =>
    refine ⟨_, rfl, rfl, ?_, ?_, ?_⟩
    · simp [CertMan.load]
    · intro e he; cases he
    · intro kp2 hkp
      injection hkp with h1
      subst h1
      simp [CertMan.load]
  | error e =>
    refine ⟨_, rfl, rfl, ?_, ?_, ?_⟩
    · simp [CertMan.load]
    · intro e2 he
      injection he with h1
      subst h1
      refine ⟨?_, ?_⟩
      · simp [CertMan.load]
      · simp [CertMan.load]
    · intro kp hkp; cases hkp

theorem Watch_err_cert (fsOk : String → Bool)
    (loadRes : Except LoadErr KeyPair) (cm : CertMan)
    (hc : fsOk (GoPath.dir cm.certFile) = false) :
    cm.Watch fsOk true loadRes = .error (.cantWatch (GoPath.dir cm.certFile)) := by
  simp only [CertMan.Watch, hc, Bool.not_true, Bool.not_false, Bool.false_eq_true,
    if_false, if_true]

theorem Watch_err_key (fsOk : String → Bool)
    (loadRes : Except LoadErr KeyPair) (cm : CertMan)
    (hc : fsOk (GoPath.dir cm.certFile) = true)
    (hne : GoPath.dir cm.keyFile ≠ GoPath.dir cm.certFile)
    (hk : fsOk (GoPath.dir cm.keyFile) = false) :
    cm.Watch fsOk true loadRes = .error (.cantWatch (GoPath.dir cm.keyFile)) := by
  have hsnd : (GoPath.dir cm.keyFile != GoPath.dir cm.certFile &&
      !fsOk (GoPath.dir cm.keyFile)) = true := by
    simp [bne_iff_ne, hne, hk]
  simp only [CertMan.Watch, hc, hsnd, Bool.not_true, Bool.false_eq_true,
    if_false, if_true]

end WatchLemmas

/-! ### Claim theorems -/

/-- C10: in every manager state both accessors return a nil error for every
handshake context; absence of a certificate is signalled solely by the nil
certificate pointer, which is exactly the stored `keyPair` field. -/
theorem certman_c10_nil_error_always :
    ∀ (cm : CertMan) (hello : Unit),
      (cm.GetCertificate hello).2 = none ∧
      (cm.GetClientCertificate hello).2 = none ∧
      (cm.GetCertificate hello).1 = cm.keyPair ∧
      (cm.GetClientCertificate hello).1 = cm.keyPair :=
  fun _ _ => ⟨rfl, rfl, rfl, rfl⟩

/-- C3: for every handshake context the accessors return the committed pair
when one exists; a freshly constructed manager holds no pair and the
accessor yields the absent value, and it keeps yielding the absent value
through a failing initial load and any trace of the loop containing no
successful load. -/
theorem certman_c3_accessor_active_or_absent :
    (∀ (cm : CertMan) (p : KeyPair) (hello : Unit),
      cm.keyPair = some p →
      cm.GetCertificate hello = (some p, none) ∧
      cm.GetClientCertificate hello = (some p, none)) ∧
    (∀ (c k : String) (hello : Unit),
      (New c k).GetCertificate hello = (none, none) ∧
      (New c k).GetClientCertificate hello = (none, none)) ∧
    (∀ (fsOk : String → Bool) (e : LoadErr) (c k : String) (cm' : CertMan)
      (tr : List RunInput) (hello : Unit),
      (New c k).Watch fsOk true (.error e) = .ok cm' →
      (∀ i ∈ tr, noSuccess i) →
      (runTrace (initRun cm') tr).cm.GetCertificate hello = (none, none)) := by
  refine ⟨?_, ?_, ?_⟩
  · intro cm p hello h
    constructor
    · show (cm.keyPair, (none : Option String)) = (some p, none)
      rw [h]
    · show (cm.keyPair, (none : Option String)) = (some p, none)
      rw [h]
  · intro c k hello
    exact ⟨rfl, rfl⟩
  · intro fsOk e c k cm' tr hello hw hns
    have h1 : cm'.keyPair = (New c k).keyPair :=
      Watch_error_keyPair fsOk true e (New c k) cm' hw
    have h2 : (runTrace (initRun cm') tr).cm.keyPair = (initRun cm').cm.keyPair :=
      runTrace_keyPair_noSuccess tr (initRun cm') hns
    show ((runTrace (initRun cm') tr).cm.keyPair, (none : Option String)) =
      (none, none)
    rw [h2]
    show (cm'.keyPair, (none : Option String)) = (none, none)
    rw [h1]
    rfl

/-- Witness for C3 at concrete inputs. -/
theorem certman_c3_accessor_active_or_absent_witness :
    ({ certFile := "/a/s.crt", keyFile := "/a/s.key", keyPair := some ⟨5⟩,
       watching := true, log := [] } : CertMan).GetCertificate () =
      (some ⟨5⟩, none) ∧
    (∀ cm', (New "/a/s.crt" "/a/s.key").Watch (fun _ => true) true
        (.error .mismatchedPair) = .ok cm' →
      (runTrace (initRun cm') [RunInput.fsevent 0 "/a/s.crt" "WRITE",
        RunInput.tick 2 (.error .mismatchedPair)]).cm.GetCertificate () =
        (none, none)) :=
  ⟨(certman_c3_accessor_active_or_absent.1 _ ⟨5⟩ () rfl).1,
   fun cm' hw => certman_c3_accessor_active_or_absent.2.2
     (fun _ => true) .mismatchedPair "/a/s.crt" "/a/s.key" cm' _ () hw
     (by intro i hi; fin_cases hi <;> trivial)⟩

/-- C7: when the watcher and both directory registrations succeed, a failing
initial load is not fatal: `Watch` logs the failure, marks the manager
watching (channel created, `run` spawned) and returns success; on a
successful initial load the pair is committed before `Watch` returns. -/
theorem certman_c7_initial_load_not_fatal :
    ∀ (fsOk : String → Bool) (loadRes : Except LoadErr KeyPair) (cm : CertMan),
      fsOk (GoPath.dir cm.certFile) = true →
      (GoPath.dir cm.keyFile = GoPath.dir cm.certFile ∨
        fsOk (GoPath.dir cm.keyFile) = true) →
      ∃ cm', cm.Watch fsOk true loadRes = .ok cm' ∧
        cm'.watching = true ∧
        LogMsg.watchingForChange ∈ cm'.log ∧
        (∀ e, loadRes = .error e →
          cm'.keyPair = cm.keyPair ∧ LogMsg.loadFailed e ∈ cm'.log) ∧
        (∀ kp, loadRes = .ok kp → cm'.keyPair = some kp) :=
  fun fsOk loadRes cm hc hk => Watch_ok_of_dirs fsOk loadRes cm hc hk

/-- Witness for C7: shared directory, failing initial load. -/
theorem certman_c7_initial_load_not_fatal_witness :
    ∃ cm', (New "/a/s.crt" "/a/s.key").Watch (fun _ => true) true
        (.error .parseFailure) = .ok cm' ∧
      cm'.watching = true ∧
      LogMsg.watchingForChange ∈ cm'.log ∧
      (∀ e, (Except.error LoadErr.parseFailure : Except LoadErr KeyPair) =
          .error e →
        cm'.keyPair = (New "/a/s.crt" "/a/s.key").keyPair ∧
        LogMsg.loadFailed e ∈ cm'.log) ∧
      (∀ kp, (Except.error .parseFailure : Except LoadErr KeyPair) = .ok kp →
        cm'.keyPair = some kp) := by
  have h := certman_c7_initial_load_not_fatal (fun _ => true)
    (.error .parseFailure) (New "/a/s.crt" "/a/s.key") rfl (Or.inl rfl)
  obtain ⟨cm', h1, h2, h3, h4, h5⟩ := h
  exact ⟨cm', h1, h2, h3, fun e he => h4 e he, h5⟩

/-- C6: `Watch` registers the containing directory of each file, exactly
once per distinct parent directory: the certificate's directory first, the
key's only when different; every registered path is one of the two
directories, and (whenever the directories differ from the file paths, as
for any absolute file path with a proper parent) never one of the file
paths themselves. -/
theorem certman_c6_directory_registration :
    ∀ (cm : CertMan),
      (cm.watchRegistrations =
        if GoPath.dir cm.keyFile = GoPath.dir cm.certFile
        then [GoPath.dir cm.certFile]
        else [GoPath.dir cm.certFile, GoPath.dir cm.keyFile]) ∧
      cm.watchRegistrations.Nodup ∧
      (∀ r ∈ cm.watchRegistrations,
        r = GoPath.dir cm.certFile ∨ r = GoPath.dir cm.keyFile) ∧
      (GoPath.dir cm.certFile ≠ cm.certFile →
        GoPath.dir cm.certFile ≠ cm.keyFile →
        GoPath.dir cm.keyFile ≠ cm.certFile →
        GoPath.dir cm.keyFile ≠ cm.keyFile →
        cm.certFile ∉ cm.watchRegistrations ∧
        cm.keyFile ∉ cm.watchRegistrations) := by
  intro cm
  by_cases h : GoPath.dir cm.keyFile = GoPath.dir cm.certFile
  · have hregs : cm.watchRegistrations = [GoPath.dir cm.certFile] := by
      simp [CertMan.watchRegistrations, h]
    refine ⟨by rw [hregs, if_pos h], ?_, ?_, ?_⟩
    · rw [hregs]; exact List.nodup_singleton _
    · intro r hr
      rw [hregs, List.mem_singleton] at hr
      exact Or.inl hr
    · intro n1 n2 n3 n4
      rw [hregs]
      constructor
      · rw [List.mem_singleton]
        exact fun hh => n1 hh.symm
      · rw [List.mem_singleton]
        exact fun hh => n2 hh.symm
  · have hb : (GoPath.dir cm.keyFile != GoPath.dir cm.certFile) = true := by
      simp [bne_iff_ne, h]
    have hregs : cm.watchRegistrations =
        [GoPath.dir cm.certFile, GoPath.dir cm.keyFile] := by
      simp [CertMan.watchRegistrations, hb]
    refine ⟨by rw [hregs, if_neg h], ?_, ?_, ?_⟩
    · rw [hregs]
      refine List.nodup_cons.mpr ⟨?_, List.nodup_singleton _⟩
      rw [List.mem_singleton]
      exact fun hh => h hh.symm
    · intro r hr
      rw [hregs] at hr
      rcases List.mem_cons.mp hr with h1 | h1
      · exact Or.inl h1
      · exact Or.inr (List.mem_singleton.mp h1)
    · intro n1 n2 n3 n4
      rw [hregs]
      constructor
      · intro hmem
        rcases List.mem_cons.mp hmem with h1 | h1
        · exact n1 h1.symm
        · exact n3 (List.mem_singleton.mp h1).symm
      · intro hmem
        rcases List.mem_cons.mp hmem with h1 | h1
        · exact n2 h1.symm
        · exact n4 (List.mem_singleton.mp h1).symm

/-- Witness for C6 at concrete paths sharing a parent directory. -/
theorem certman_c6_directory_registration_witness :
    (New "/etc/ssl/server.crt" "/etc/ssl/server.key").watchRegistrations =
      [GoPath.dir "/etc/ssl/server.crt"] ∧
    "/etc/ssl/server.crt" ∉
      (New "/etc/ssl/server.crt" "/etc/ssl/server.key").watchRegistrations ∧
    "/etc/ssl/server.key" ∉
      (New "/etc/ssl/server.crt" "/etc/ssl/server.key").watchRegistrations := by
  have h := certman_c6_directory_registration (New "/etc/ssl/server.crt" "/etc/ssl/server.key")
  have h4 := h.2.2.2 (by decide) (by decide) (by decide) (by decide)
  refine ⟨?_, h4.1, h4.2⟩
  rw [h.1]
  rw [if_pos (by decide)]
  rfl

/-- C5 counterexample: the certificate file `/data/nothere.crt` does not
exist (the `Add` oracle holds only of the directory `/data`), yet `Watch`
returns success rather than a watch-subscription failure, because only the
containing directory is registered. -/
theorem certman_c5_counterexample :
    (fun p => p == "/data") "/data/nothere.crt" = false ∧
    CertMan.Watch (fun p => p == "/data") true (.error .fileUnreadable)
        (New "/data/nothere.crt" "/data/server.key") =
      .ok { certFile := "/data/nothere.crt", keyFile := "/data/server.key",
            keyPair := none, watching := true,
            log := [LogMsg.loadFailed .fileUnreadable,
                    LogMsg.loadFailed .fileUnreadable,
                    LogMsg.watchingForChange] } :=
  ⟨rfl, rfl⟩

/-- C5 amended: `Watch` fails fast exactly when registering a containing
directory fails; the certificate's directory is attempted first and the
error names the directory path that failed (not the cert/key side); when
both directory registrations succeed `Watch` returns success whatever the
state of the files themselves. -/
theorem certman_c5_amended_failfast :
    ∀ (fsOk : String → Bool) (loadRes : Except LoadErr KeyPair) (cm : CertMan),
      (fsOk (GoPath.dir cm.certFile) = false →
        cm.Watch fsOk true loadRes =
          .error (.cantWatch (GoPath.dir cm.certFile))) ∧
      (fsOk (GoPath.dir cm.certFile) = true →
        GoPath.dir cm.keyFile ≠ GoPath.dir cm.certFile →
        fsOk (GoPath.dir cm.keyFile) = false →
        cm.Watch fsOk true loadRes =
          .error (.cantWatch (GoPath.dir cm.keyFile))) ∧
      (fsOk (GoPath.dir cm.certFile) = true →
        (GoPath.dir cm.keyFile = GoPath.dir cm.certFile ∨
          fsOk (GoPath.dir cm.keyFile) = true) →
        ∃ cm', cm.Watch fsOk true loadRes = .ok cm') := by
  intro fsOk loadRes cm
  refine ⟨Watch_err_cert fsOk loadRes cm, Watch_err_key fsOk loadRes cm, ?_⟩
  intro hc hk
  obtain ⟨cm', h1, _⟩ := Watch_ok_of_dirs fsOk loadRes cm hc hk
  exact ⟨cm', h1⟩

/-- Witness for C5 amended: cert directory missing; key directory missing;
both present. -/
theorem certman_c5_amended_failfast_witness :
    CertMan.Watch (fun p => p == "/x") true (.error .fileUnreadable)
        (New "/a/c.crt" "/a/k.key") =
      .error (.cantWatch (GoPath.dir "/a/c.crt")) ∧
    CertMan.Watch (fun p => p == "/a") true (.error .fileUnreadable)
        (New "/a/c.crt" "/b/k.key") =
      .error (.cantWatch (GoPath.dir "/b/k.key")) ∧
    ∃ cm', CertMan.Watch (fun _ => true) true (.error .fileUnreadable)
        (New "/a/c.crt" "/b/k.key") = .ok cm' :=
  ⟨(certman_c5_amended_failfast (fun p => p == "/x") (.error .fileUnreadable)
      (New "/a/c.crt" "/a/k.key")).1 (by decide),
   (certman_c5_amended_failfast (fun p => p == "/a") (.error .fileUnreadable)
      (New "/a/c.crt" "/b/k.key")).2.1 (by decide) (by decide) (by decide),
   (certman_c5_amended_failfast (fun _ => true) (.error .fileUnreadable)
      (New "/a/c.crt" "/b/k.key")).2.2 rfl (Or.inr rfl)⟩

/-- C9: evaluating `Watch` on a mismatched pair: start succeeds and the
accessor yields the absent value, but the `can't load` failure line appears
twice before the watching message (once from `load`, line 126, once from
`Watch`, line 104), not exactly once as the spec and the repository's
`TestInvalidPair` expect. -/
theorem certman_c9_mismatch_double_log :
    CertMan.Watch (fun _ => true) true (.error .mismatchedPair)
        (New "/etc/ssl/server1.crt" "/etc/ssl/server2.key") =
      .ok { certFile := "/etc/ssl/server1.crt",
            keyFile := "/etc/ssl/server2.key",
            keyPair := none, watching := true,
            log := [LogMsg.loadFailed .mismatchedPair,
                    LogMsg.loadFailed .mismatchedPair,
                    LogMsg.watchingForChange] } ∧
    (([LogMsg.loadFailed .mismatchedPair, LogMsg.loadFailed .mismatchedPair,
        LogMsg.watchingForChange].takeWhile
          (fun m => m != LogMsg.watchingForChange)).filter isLoadFail).length
      = 2 :=
  ⟨rfl, rfl⟩

/-- C1: a failed load — at `Watch`-time or from the ticker branch — leaves
the stored key pair exactly as it was, and the pending deadline is cleared
whatever the outcome; consequently once a pair is committed the accessor
never again yields the absent value, whatever trace the loop processes. -/
theorem certman_c1_failed_reload_preserves_pair :
    (∀ (cm : CertMan) (e : LoadErr),
      (cm.load (.error e)).1.keyPair = cm.keyPair) ∧
    (∀ (fsOk : String → Bool) (w : Bool) (e : LoadErr) (cm cm' : CertMan),
      cm.Watch fsOk w (.error e) = .ok cm' → cm'.keyPair = cm.keyPair) ∧
    (∀ (st : RunState) (now : ℚ) (e : LoadErr),
      (handleTick now (.error e) st).cm.keyPair = st.cm.keyPair) ∧
    (∀ (st : RunState) (now : ℚ) (res : Except LoadErr KeyPair) (d : ℚ),
      st.reload = some d → d < now → (handleTick now res st).reload = none) ∧
    (∀ (st : RunState) (tr : List RunInput),
      st.cm.keyPair.isSome = true →
      (runTrace st tr).cm.keyPair.isSome = true ∧
      ((runTrace st tr).cm.GetCertificate ()).1 ≠ none) := by
  refine ⟨?_, ?_, ?_, ?_, ?_⟩
  · intro cm e; rfl
  · intro fsOk w e cm cm' h
    exact Watch_error_keyPair fsOk w e cm cm' h
  · intro st now e
    exact handleTick_fail_keyPair now e st
  · intro st now res d h hd
    exact (handleTick_fire now res st d h hd).1
  · intro st tr h
    have hm := runTrace_keyPair_mono tr st h
    exact ⟨hm, Option.ne_none_iff_isSome.mpr hm⟩

/-- Witness for C1: a committed pair survives a failed event-driven reload
and a failed initial load. -/
theorem certman_c1_failed_reload_preserves_pair_witness :
    (∀ cm', (New "/a/s.crt" "/a/s.key").Watch (fun _ => true) true
        (.error .mismatchedPair) = .ok cm' →
      cm'.keyPair = (New "/a/s.crt" "/a/s.key").keyPair) ∧
    (handleTick 2 (.ok ⟨9⟩)
      { cm := New "/a/s.crt" "/a/s.key", reload := some 1, stopped := false,
        fired := 0 }).reload = none ∧
    ((runTrace
      { cm := { certFile := "/a/s.crt", keyFile := "/a/s.key",
                keyPair := some ⟨7⟩, watching := true, log := [] },
        reload := some 1, stopped := false, fired := 0 }
      [RunInput.tick 2 (.error .mismatchedPair)]).cm.keyPair.isSome = true) :=
  ⟨fun cm' h => certman_c1_failed_reload_preserves_pair.2.1
      (fun _ => true) true .mismatchedPair _ cm' h,
   certman_c1_failed_reload_preserves_pair.2.2.2.1 _ 2 (.ok ⟨9⟩) 1 rfl
     (by norm_num),
   (certman_c1_failed_reload_preserves_pair.2.2.2.2
     { cm := { certFile := "/a/s.crt", keyFile := "/a/s.key",
               keyPair := some ⟨7⟩, watching := true, log := [] },
       reload := some 1, stopped := false, fired := 0 }
     [RunInput.tick 2 (.error .mismatchedPair)] rfl).1⟩

/-- C2: a filesystem event whose path equals the certificate path, the key
path, or ends in the Kubernetes `/..data` marker (re)sets the pending
deadline to one second after the event (timer-reset); an event matching
none of these leaves the loop state unchanged; and a burst of matching
events, each within the debounce window of the previous one and followed
by a ticker wake-up past the final deadline, fires exactly one reload,
with the deadline timed from the last event of the burst. -/
theorem certman_c2_debounce_reset_single_fire :
    (∀ (st : RunState) (now : ℚ) (name op : String),
      st.stopped = false →
      (name = st.cm.certFile ∨ name = st.cm.keyFile ∨
        hasSuffix name "/..data" = true) →
      (runStep st (.fsevent now name op)).reload = some (now + 1)) ∧
    (∀ (st : RunState) (now : ℚ) (name op : String),
      name ≠ st.cm.certFile → name ≠ st.cm.keyFile →
      hasSuffix name "/..data" = false →
      runStep st (.fsevent now name op) = st) ∧
    (∀ (res : Except LoadErr KeyPair) (segs : List BurstSeg)
      (trailing : List ℚ) (st : RunState) (hne : segs ≠ []),
      st.stopped = false → st.reload = none →
      segsChained st.cm.certFile st.cm.keyFile none segs →
      (∃ τ ∈ trailing, (segs.getLast hne).evTime + 1 < τ) →
      (runTrace st (burstTrace res segs trailing)).fired = st.fired + 1 ∧
      (runTrace st (segsTrace res segs)).reload =
        some ((segs.getLast hne).evTime + 1)) := by
  refine ⟨?_, ?_, ?_⟩
  · intro st now name op hs hm
    rw [runStep_fsevent_eq st now name op hs]
    apply handleEvent_matched
    rcases hm with h | h | h
    · simp [fileMatch, h]
    · simp [fileMatch, h]
    · simp [fileMatch, h]
  · intro st now name op h1 h2 h3
    by_cases hs : st.stopped = true
    · unfold runStep; rw [hs]; rfl
    · rw [runStep_fsevent_eq st now name op (Bool.not_eq_true _ ▸ hs)]
      apply handleEvent_unmatched
      · simp [fileMatch, h3, beq_eq_false_iff_ne]
        exact h1
      · simp [fileMatch, h3, beq_eq_false_iff_ne]
        exact h2
  · intro res segs trailing st hne hs hr hchain hex
    have hsegs := runTrace_segs res segs st none hne hs (by simp [hr]) hchain
    constructor
    · have hsplit : runTrace st (burstTrace res segs trailing) =
          runTrace (runTrace st (segsTrace res segs))
            (trailing.map (fun τ => RunInput.tick τ res)) := by
        unfold burstTrace
        exact runTrace_append st _ _
      rw [hsplit]
      have hfire := runTrace_trailing_fire res trailing
        (runTrace st (segsTrace res segs))
        ((segs.getLast hne).evTime + 1) hsegs.2.2 hsegs.1 hex
      rw [hfire, hsegs.2.1]
    · exact hsegs.1

/-- Witness for C2: a two-event burst on the cert and key files, half a
second apart, with a ticker wake-up in between and one after the deadline,
fires exactly once. -/
theorem certman_c2_debounce_reset_single_fire_witness :
    (runStep (initRun (New "/a/s.crt" "/a/s.key"))
      (.fsevent 0 "/a/s.crt" "WRITE")).reload = some (0 + 1) ∧
    runStep (initRun (New "/a/s.crt" "/a/s.key"))
      (.fsevent 0 "/other.txt" "WRITE") = initRun (New "/a/s.crt" "/a/s.key") ∧
    (runTrace (initRun (New "/a/s.crt" "/a/s.key"))
      (burstTrace (.ok ⟨1⟩)
        [⟨[], 0, "/a/s.crt", "WRITE"⟩, ⟨[1/2], 1/2, "/a/s.key", "WRITE"⟩]
        [2])).fired = (initRun (New "/a/s.crt" "/a/s.key")).fired + 1 :=
  ⟨certman_c2_debounce_reset_single_fire.1 _ 0 _ "WRITE" rfl (Or.inl rfl),
   certman_c2_debounce_reset_single_fire.2.1 _ 0 _ "WRITE" (by decide)
     (by decide) (by decide),
   (certman_c2_debounce_reset_single_fire.2.2 (.ok ⟨1⟩)
     [⟨[], 0, "/a/s.crt", "WRITE"⟩, ⟨[1/2], 1/2, "/a/s.key", "WRITE"⟩] [2]
     (initRun (New "/a/s.crt" "/a/s.key")) (by simp) rfl rfl
     (by
       refine ⟨?_, trivial, by decide, ?_, ?_, by decide, trivial⟩
       · intro τ hτ
         cases hτ
       · intro τ hτ
         rw [List.mem_singleton] at hτ
         exact le_of_eq hτ
       · show (1 : ℚ) / 2 < 0 + 1
         norm_num)
     ⟨2, by simp, by norm_num⟩).1⟩

section SysModelLemmas

theorem sysStep_frozen (s : SysState) (a : SysAction)
    (h : s.pc = .notStarted ∨ s.pc = .done) :
    (sysStep s a).pc = s.pc ∧ (sysStep s a).stopsReturned = s.stopsReturned := by
  cases a with
  | callStop => exact ⟨rfl, rfl⟩
  | rendezvous =>
    have hc : ¬(s.pc = .selecting ∧ s.stopsReturned < s.stopsRequested) := by
      rcases h with h | h <;> simp [h]
    unfold sysStep
    rw [if_neg hc]
    exact ⟨rfl, rfl⟩
  | deliverEvent =>
    have hc : ¬(s.pc = .selecting) := by
      rcases h with h | h <;> simp [h]
    unfold sysStep
    rw [if_neg hc]
    exact ⟨rfl, rfl⟩
  | loopStep =>
    have hstep : sysStep s .loopStep = s := by
      unfold sysStep
      rcases h with h | h <;> rw [h]
    rw [hstep]
    exact ⟨rfl, rfl⟩

theorem sysRun_frozen (tr : List SysAction) :
    ∀ (s : SysState), (s.pc = .notStarted ∨ s.pc = .done) →
      (sysRun s tr).pc = s.pc ∧
      (sysRun s tr).stopsReturned = s.stopsReturned := by
  induction tr with
  | nil => intro s _; exact ⟨rfl, rfl⟩
  | cons a rest ih =>
    intro s h
    have h1 := sysStep_frozen s a h
    have h2 : (sysStep s a).pc = .notStarted ∨ (sysStep s a).pc = .done := by
      rw [h1.1]; exact h
    have h3 := ih (sysStep s a) h2
    exact ⟨h3.1.trans h1.1, h3.2.trans h1.2⟩

theorem sysStep_inv (s : SysState) (a : SysAction)
    (h : (1 ≤ s.stopsReturned → s.pc ≠ .notStarted ∧ s.pc ≠ .selecting) ∧
      ((s.pc = .loggedStop ∨ s.pc = .done) →
        LogMsg.stoppedWatching ∈ s.log) ∧
      (s.pc = .done → s.watcherClosed = true)) :
    (1 ≤ (sysStep s a).stopsReturned →
      (sysStep s a).pc ≠ .notStarted ∧ (sysStep s a).pc ≠ .selecting) ∧
    (((sysStep s a).pc = .loggedStop ∨ (sysStep s a).pc = .done) →
      LogMsg.stoppedWatching ∈ (sysStep s a).log) ∧
    ((sysStep s a).pc = .done → (sysStep s a).watcherClosed = true) := by
  obtain ⟨h1, h2, h3⟩ := h
  cases a with
  | callStop => exact ⟨h1, h2, h3⟩
  | rendezvous =>
    by_cases hc : s.pc = .selecting ∧ s.stopsReturned < s.stopsRequested
    · unfold sysStep
      rw [if_pos hc]
      refine ⟨fun _ => ⟨by simp, by simp⟩, ?_, ?_⟩
      · rintro (hh | hh) <;> simp at hh
      · intro hh; simp at hh
    · unfold sysStep
      rw [if_neg hc]
      exact ⟨h1, h2, h3⟩
  | deliverEvent =>
    by_cases hc : s.pc = .selecting
    · unfold sysStep
      rw [if_pos hc]
      exact ⟨h1, h2, h3⟩
    · unfold sysStep
      rw [if_neg hc]
      exact ⟨h1, h2, h3⟩
  | loopStep =>
    cases hpc : s.pc with
    | notStarted =>
      have hstep : sysStep s .loopStep = s := by unfold sysStep; rw [hpc]
      rw [hstep]; exact ⟨h1, h2, h3⟩
    | selecting =>
      have hstep : sysStep s .loopStep = s := by unfold sysStep; rw [hpc]
      rw [hstep]; exact ⟨h1, h2, h3⟩
    | done =>
      have hstep : sysStep s .loopStep = s := by unfold sysStep; rw [hpc]
      rw [hstep]; exact ⟨h1, h2, h3⟩
    | gotStop =>
      have hstep : sysStep s .loopStep =
          { s with pc := .exitedLoop, log := s.log ++ [LogMsg.breakLoop] } := by
        unfold sysStep; rw [hpc]
      rw [hstep]
      refine ⟨fun _ => ⟨by simp, by simp⟩, ?_, ?_⟩
      · rintro (hh | hh) <;> simp at hh
      · intro hh; simp at hh
    | exitedLoop =>
      have hstep : sysStep s .loopStep =
          { s with pc := .loggedStop,
                   log := s.log ++ [LogMsg.stoppedWatching] } := by
        unfold sysStep; rw [hpc]
      rw [hstep]
      refine ⟨fun _ => ⟨by simp, by simp⟩, ?_, ?_⟩
      · intro _
        simp
      · intro hh; simp at hh
    | loggedStop =>
      have hstep : sysStep s .loopStep =
          { s with pc := .done, watcherClosed := true } := by
        unfold sysStep; rw [hpc]
      rw [hstep]
      refine ⟨fun _ => ⟨by simp, by simp⟩, ?_, ?_⟩
      · intro _
        exact h2 (Or.inl hpc)
      · intro _
        rfl

theorem sysRun_inv (tr : List SysAction) :
    ∀ (s : SysState),
      ((1 ≤ s.stopsReturned → s.pc ≠ .notStarted ∧ s.pc ≠ .selecting) ∧
        ((s.pc = .loggedStop ∨ s.pc = .done) →
          LogMsg.stoppedWatching ∈ s.log) ∧
        (s.pc = .done → s.watcherClosed = true)) →
      (1 ≤ (sysRun s tr).stopsReturned →
        (sysRun s tr).pc ≠ .notStarted ∧ (sysRun s tr).pc ≠ .selecting) ∧
      (((sysRun s tr).pc = .loggedStop ∨ (sysRun s tr).pc = .done) →
        LogMsg.stoppedWatching ∈ (sysRun s tr).log) ∧
      ((sysRun s tr).pc = .done → (sysRun s tr).watcherClosed = true) := by
  induction tr with
  | nil => intro s h; exact h
  | cons a rest ih =>
    intro s h
    exact ih (sysStep s a) (sysStep_inv s a h)

end SysModelLemmas

/-- C4 counterexample: in the schedule where the caller invokes `Stop` and
the channel rendezvous completes, `Stop` has already returned
(`stopsReturned = 1`) while the loop has not exited, the `stopped watching`
line has not been logged, and the watch subscription is still open — so
`Stop` is not synchronous with loop exit, release, or the completion log. -/
theorem certman_c4_counterexample :
    (sysRun sysWatching [.callStop, .rendezvous]).stopsReturned = 1 ∧
    (sysRun sysWatching [.callStop, .rendezvous]).watcherClosed = false ∧
    LogMsg.stoppedWatching ∉ (sysRun sysWatching [.callStop, .rendezvous]).log ∧
    (sysRun sysWatching [.callStop, .rendezvous]).pc ≠ .done := by
  decide

/-- C4 amended: `Stop` blocks until the loop receives the stop value on the
`watching` channel; once `Stop` has returned the loop is past its `select`
and delivering further events changes nothing; the loop then logs
`stopped watching` and closes the watcher — but only by the time the
goroutine finishes, not necessarily before `Stop` returns. -/
theorem certman_c4_stop_rendezvous :
    ∀ (tr : List SysAction),
      (1 ≤ (sysRun sysWatching tr).stopsReturned →
        (sysRun sysWatching tr).pc ≠ .notStarted ∧
        (sysRun sysWatching tr).pc ≠ .selecting ∧
        sysStep (sysRun sysWatching tr) .deliverEvent =
          sysRun sysWatching tr) ∧
      ((sysRun sysWatching tr).pc = .done →
        (sysRun sysWatching tr).watcherClosed = true ∧
        LogMsg.stoppedWatching ∈ (sysRun sysWatching tr).log) := by
  intro tr
  have hinv := sysRun_inv tr sysWatching (by decide)
  refine ⟨?_, ?_⟩
  · intro hst
    have hh := hinv.1 hst
    refine ⟨hh.1, hh.2, ?_⟩
    unfold sysStep
    rw [if_neg hh.2]
  · intro hd
    exact ⟨hinv.2.2 hd, hinv.2.1 (Or.inr hd)⟩

/-- Witness for the amended C4 on concrete schedules. -/
theorem certman_c4_stop_rendezvous_witness :
    ((sysRun sysWatching [SysAction.callStop, .rendezvous]).pc ≠ .selecting ∧
      sysStep (sysRun sysWatching [SysAction.callStop, .rendezvous])
        .deliverEvent = sysRun sysWatching [SysAction.callStop, .rendezvous]) ∧
    ((sysRun sysWatching [SysAction.callStop, .rendezvous, .loopStep,
        .loopStep, .loopStep]).watcherClosed = true ∧
      LogMsg.stoppedWatching ∈ (sysRun sysWatching [SysAction.callStop,
        .rendezvous, .loopStep, .loopStep, .loopStep]).log) :=
  ⟨⟨((certman_c4_stop_rendezvous [SysAction.callStop, .rendezvous]).1
      (by decide)).2.1,
    ((certman_c4_stop_rendezvous [SysAction.callStop, .rendezvous]).1
      (by decide)).2.2⟩,
   (certman_c4_stop_rendezvous [SysAction.callStop, .rendezvous, .loopStep,
      .loopStep, .loopStep]).2 (by decide)⟩

/-- C8: a `Stop` call issued before `Watch` (nil channel) or after a
completed stop (no receiver will ever run again) never returns: under
every schedule the count of returned `Stop` calls stays at 0 (resp. 1,
the first call) — the send blocks forever, so the claimed defined,
returning behavior does not hold of the code. -/
theorem certman_c8_stop_misuse_blocks_forever :
    (∀ tr : List SysAction, (sysRun sysPreStartStop tr).stopsReturned = 0) ∧
    (∀ tr : List SysAction, (sysRun sysSecondStop tr).stopsReturned = 1) := by
  constructor
  · intro tr
    exact (sysRun_frozen tr sysPreStartStop (Or.inl rfl)).2
  · intro tr
    exact (sysRun_frozen tr sysSecondStop (Or.inr rfl)).2
